import Mathlib

/-!
Verification of the drone-gcloud-helm plugin (Go sources `plugin.go`, `main.go`)
against its natural-language design specification.

The Go program orchestrates external CLI tools (gcloud, gsutil, kubectl, helm).
We embed it shallowly:

* External effects (temp-file creation, file writes, command execution,
  environment mutation, sleeping) are modelled as an `Event` trace, threaded
  through an explicit state `EffState`.
* The outcome of each fallible effect is decided by a `World` oracle: `ok n`
  gives the success of the n-th effectful operation of the run, `tmpName n`
  the (OS-chosen) name of a temp file created at operation index n.
  `ioutil.TempFile`'s uniqueness guarantee is modelled by theorems taking
  injectivity of `tmpName` as a hypothesis.
* Go functions returning `error` become functions returning
  `Except Err Unit × EffState`; the value receiver `func (p Plugin) ...`
  justifies modelling handlers as pure functions of the configuration.
-/

deriving instance DecidableEq for Except

/-- An external command: binary path plus argument vector
(Go `exec.Command(bin, args...)`). -/
structure Cmd where
  bin : String
  args : List String
deriving DecidableEq

/-- Observable effects of the program, in the order they happen. -/
inductive Event where
  /-- `ioutil.TempFile("", pat)` creating file `name` with mode (0o600 = 384). -/
  | tempFile (pat name : String) (mode : Nat)
  /-- `file.Write(content)`. -/
  | fwrite (file content : String)
  /-- `file.Close()`. -/
  | fclose (file : String)
  /-- `cmd.Run()`. -/
  | run (c : Cmd)
  /-- `os.Setenv(key, value)`. -/
  | setenv (key value : String)
  /-- `time.Sleep` of the given number of seconds. -/
  | sleep (secs : Nat)
deriving DecidableEq

/-- Error values the Go code can propagate. -/
inductive Err where
  | ioTempFile
  | ioWrite
  | ioClose
  | ioSetenv
  | cmdFailed (c : Cmd)
  /-- `errors.New("unknown action")` from the dispatch switch. -/
  | unknownAction
deriving DecidableEq

/-- The environment the program runs in: success of the n-th effectful
operation, and the unique name the OS hands out for a temp file created at
operation index n. -/
structure World where
  ok : Nat → Bool
  tmpName : Nat → String

/-- Program state: a counter of effectful operations performed, the trace of
events so far, and the process environment variables set so far. -/
structure EffState where
  idx : Nat
  trace : List Event
  env : List (String × String)
deriving DecidableEq

def initState : EffState := ⟨0, [], []⟩

/-- Perform one effectful operation: record the event, consume one oracle
index, report the oracle's verdict. -/
def emit (w : World) (e : Event) (s : EffState) : Bool × EffState :=
  (w.ok s.idx, { s with idx := s.idx + 1, trace := s.trace ++ [e] })

/-- `ioutil.TempFile("", pat)`: creates a fresh, uniquely named file with
permissions 0o600 (Go stdlib behaviour) and returns its name. -/
def tempFileE (w : World) (pat : String) (s : EffState) : Except Err String × EffState :=
  let name := w.tmpName s.idx
  match emit w (.tempFile pat name 384) s with
  | (true, s') => (.ok name, s')
  | (false, s') => (.error .ioTempFile, s')

/-- `file.Write([]byte(content))`. -/
def fwriteE (w : World) (file content : String) (s : EffState) : Except Err Unit × EffState :=
  match emit w (.fwrite file content) s with
  | (true, s') => (.ok (), s')
  | (false, s') => (.error .ioWrite, s')

/-- `file.Close()`. -/
def fcloseE (w : World) (file : String) (s : EffState) : Except Err Unit × EffState :=
  match emit w (.fclose file) s with
  | (true, s') => (.ok (), s')
  | (false, s') => (.error .ioClose, s')

/-- `cmd.Run()` for an `exec.Cmd`. -/
def runCmdE (w : World) (c : Cmd) (s : EffState) : Except Err Unit × EffState :=
  match emit w (.run c) s with
  | (true, s') => (.ok (), s')
  | (false, s') => (.error (.cmdFailed c), s')

/-- `os.Setenv(key, value)`: on success the process environment gains the
binding. -/
def setenvE (w : World) (key value : String) (s : EffState) : Except Err Unit × EffState :=
  match emit w (.setenv key value) s with
  | (true, s') => (.ok (), { s' with env := s'.env ++ [(key, value)] })
  | (false, s') => (.error .ioSetenv, s')

/-- The plugin configuration (struct `Plugin` of `plugin.go`; the `Release`
and `ShowEnv` fields are referenced by `main.go` (`preparePlugin`, env dump)
and listed in the design's data model). -/
structure Plugin where
  Debug : Bool
  ShowEnv : Bool
  Actions : List String
  AuthKey : String
  Zone : String
  Cluster : String
  Project : String
  Namespace : String
  ChartRepo : String
  Bucket : String
  ChartPath : String
  ChartVersion : String
  Package : String
  Release : String
  Values : List String
deriving DecidableEq

def gcloudBin : String := "/opt/google-cloud-sdk/bin/gcloud"
def gsutilBin : String := "/opt/google-cloud-sdk/bin/gsutil"
def kubectlBin : String := "/opt/google-cloud-sdk/bin/kubectl"
def helmBin : String := "/opt/google-cloud-sdk/bin/helm"

/-- Go `strings.Split(s, "/")` specialised to the one-character separator,
written structurally on the character list so that it evaluates. -/
def splitSlashAux : List Char → List Char → List String
  | [], acc => [String.mk acc.reverse]
  | c :: cs, acc =>
    if c = '/' then String.mk acc.reverse :: splitSlashAux cs []
    else splitSlashAux cs (c :: acc)

def splitSlash (s : String) : List String := splitSlashAux s.data []

/-- `s := strings.Split(chartPath, "/"); s[len(s)-1]` — the final segment
(`splitSlash` never returns `[]`, so the default is never used). -/
def lastSegment (path : String) : String := (splitSlash path).getLastD ""

/-- `fmt.Sprintf("https://%s.storage.googleapis.com/", bucket)`. -/
def storageURL (bucket : String) : String :=
  "https://" ++ bucket ++ ".storage.googleapis.com/"

/-- `preparePlugin` from `main.go`: fill defaults, in source order. -/
def preparePlugin (p : Plugin) : Plugin :=
  let p := if p.Package = "" then { p with Package := lastSegment p.ChartPath } else p
  let p := if p.Release = "" then { p with Release := p.Package } else p
  let p :=
    if p.ChartRepo = "" ∧ p.Bucket ≠ "" then { p with ChartRepo := storageURL p.Bucket }
    else p
  if p.Namespace = "" then { p with Namespace := "default" } else p

/-- `preparePlugin` as the Go signature has it: it mutates the configuration
and returns an error value, whose only occurrence in the source is the final
`return nil`. -/
def preparePluginRun (p : Plugin) : Plugin × Option Err :=
  (preparePlugin p, none)

/-! ## The commands the plugin constructs (argument vectors from `plugin.go`) -/

/-- `helm package --version $CHART_VERSION $CHART_PATH` (`createPackage`). -/
def packageCmd (p : Plugin) : Cmd :=
  ⟨helmBin, ["package", "--version", p.ChartVersion, p.ChartPath]⟩

/-- `gsutil cp $PACKAGE-$CHART_VERSION.tgz gs://$BUCKET` (`pushPackage`). -/
def pushCmd (p : Plugin) : Cmd :=
  ⟨gsutilBin, ["cp", p.Package ++ "-" ++ p.ChartVersion ++ ".tgz", "gs://" ++ p.Bucket]⟩

/-- Go `strings.Join(xs, ",")`, written structurally. -/
def joinComma : List String → String
  | [] => ""
  | [x] => x
  | x :: y :: xs => x ++ "," ++ joinComma (y :: xs)

/-- The `helm upgrade` command of `deployPackage`, built after the local
`p.Values = append(p.Values, "namespace=...")`.  Note the first positional
argument is `p.Package`, per the source. -/
def deployCmd (p : Plugin) : Cmd :=
  ⟨helmBin, ["upgrade", p.Package, p.Package ++ "-" ++ p.ChartVersion ++ ".tgz",
    "--set", joinComma (p.Values ++ ["namespace=" ++ p.Namespace]),
    "--install", "--namespace", p.Namespace]⟩

/-- `kubectl config view` (`kubeConfig`). -/
def kubeCmd : Cmd := ⟨kubectlBin, ["config", "view"]⟩

/-- `helm init --client-only` (`helmInit`). -/
def helmInitCmd : Cmd := ⟨helmBin, ["init", "--client-only"]⟩

/-- `gcloud auth activate-service-account --key-file=<name>` (`setupProject`). -/
def authCmd (name : String) : Cmd :=
  ⟨gcloudBin, ["auth", "activate-service-account", "--key-file=" ++ name]⟩

/-- `gcloud config set project $PROJECT` (`setupProject`). -/
def projectCmd (p : Plugin) : Cmd :=
  ⟨gcloudBin, ["config", "set", "project", p.Project]⟩

/-- `gcloud container clusters get-credentials $CLUSTER --zone $ZONE`
(`setupProject`). -/
def credsCmd (p : Plugin) : Cmd :=
  ⟨gcloudBin, ["container", "clusters", "get-credentials", p.Cluster, "--zone", p.Zone]⟩

/-! ## The plugin methods -/

/-- `Plugin.createPackage`: run the packaging command.  (The `Debug` branch
only affects logging/stdio inheritance, which the design scopes out.) -/
def createPackage (w : World) (p : Plugin) (s : EffState) : Except Err Unit × EffState :=
  runCmdE w (packageCmd p) s

/-- `Plugin.pushPackage`: copy the artifact to the bucket. -/
def pushPackage (w : World) (p : Plugin) (s : EffState) : Except Err Unit × EffState :=
  runCmdE w (pushCmd p) s

/-- `Plugin.kubeConfig`: diagnostic dump of the cluster configuration. -/
def kubeConfig (w : World) (s : EffState) : Except Err Unit × EffState :=
  runCmdE w kubeCmd s

/-- `Plugin.deployPackage`: on `Debug`, first dump the kube config; then
append the namespace override to the (local copy of the) values and run
`helm upgrade ... --install`. -/
def deployPackage (w : World) (p : Plugin) (s : EffState) : Except Err Unit × EffState :=
  match (if p.Debug then kubeConfig w s else (.ok (), s)) with
  | (.error e, s') => (.error e, s')
  | (.ok _, s') => runCmdE w (deployCmd p) s'

/-- The `for _, cmd := range cmds { ... cmd.Run() }` loop of `setupProject`. -/
def runCmds (w : World) : List Cmd → EffState → Except Err Unit × EffState
  | [], s => (.ok (), s)
  | c :: cs, s =>
    match runCmdE w c s with
    | (.error e, s') => (.error e, s')
    | (.ok _, s') => runCmds w cs s'

/-- `Plugin.setupProject`: write the auth key to a fresh private temp file,
then activate the service account, set the project, and fetch cluster
credentials, in that order; finally record the key-file path in the process
environment. -/
def setupProject (w : World) (p : Plugin) (s : EffState) : Except Err Unit × EffState :=
  match tempFileE w "auth-key.json" s with
  | (.error e, s1) => (.error e, s1)
  | (.ok name, s1) =>
    match fwriteE w name p.AuthKey s1 with
    | (.error e, s2) => (.error e, s2)
    | (.ok _, s2) =>
      match fcloseE w name s2 with
      | (.error e, s3) => (.error e, s3)
      | (.ok _, s3) =>
        match runCmds w [authCmd name, projectCmd p, credsCmd p] s3 with
        | (.error e, s4) => (.error e, s4)
        | (.ok _, s4) => setenvE w "GOOGLE_APPLICATION_CREDENTIALS" name s4

/-- `Plugin.helmInit`: client-only initialization of the packaging tool. -/
def helmInit (w : World) (s : EffState) : Except Err Unit × EffState :=
  runCmdE w helmInitCmd s

/-- One arm of the `switch a` in `Plugin.Exec` (factored out of the loop
body; the `default` arm is `errors.New("unknown action")`). -/
def runAction (w : World) (p : Plugin) (a : String) (s : EffState) :
    Except Err Unit × EffState :=
  if a = "create" then createPackage w p s
  else if a = "push" then pushPackage w p s
  else if a = "deploy" then deployPackage w p s
  else (.error .unknownAction, s)

/-- The `for _, a := range p.Actions` loop of `Plugin.Exec`: each iteration
returns on the first error. -/
def runActions (w : World) (p : Plugin) : List String → EffState → Except Err Unit × EffState
  | [], s => (.ok (), s)
  | a :: as, s =>
    match runAction w p a s with
    | (.error e, s') => (.error e, s')
    | (.ok _, s') => runActions w p as s'

/-- `Plugin.Exec`: credentials, packaging-tool initialization, then the
declared actions in order. -/
def Exec (w : World) (p : Plugin) (s : EffState) : Except Err Unit × EffState :=
  match setupProject w p s with
  | (.error e, s1) => (.error e, s1)
  | (.ok _, s1) =>
    match helmInit w s1 with
    | (.error e, s2) => (.error e, s2)
    | (.ok _, s2) => runActions w p p.Actions s2

/-- Final outcome of a run of `main`: normal exit, or `logrus.Fatal` with the
reported error. -/
inductive Outcome where
  | success
  | fatal (e : Err)
deriving DecidableEq

/-- `time.Sleep(10 * time.Second)`. -/
def sleep10 (s : EffState) : EffState := { s with trace := s.trace ++ [.sleep 10] }

/-- `main` from `main.go`, from the point the configuration has been parsed
(env-file loading, env parsing and log-level setup are scoped out by the
design).  `preparePlugin` is retried once after a 10-second sleep if it
returns an error; then `p.Exec()` is retried once — with no sleep — if it
returns an error; a second failure of either is fatal. -/
def mainRun (w : World) (p0 : Plugin) : Outcome × EffState :=
  let execPhase := fun (p : Plugin) (s : EffState) =>
    match Exec w p s with
    | (.ok _, s') => (Outcome.success, s')
    | (.error _, s') =>
      match Exec w p s' with
      | (.ok _, s'') => (Outcome.success, s'')
      | (.error e2, s'') => (Outcome.fatal e2, s'')
  match preparePluginRun p0 with
  | (p1, none) => execPhase p1 initState
  | (p1, some _) =>
    let s1 := sleep10 initState
    match preparePluginRun p1 with
    | (p2, none) => execPhase p2 s1
    | (_, some e) => (Outcome.fatal e, s1)

/-! ## Concrete worlds and configurations used in witnesses and
counterexamples -/

/-- A world where every operation succeeds; temp-file names are an arbitrary
injective function of the creation index. -/
def wAllOk : World := ⟨fun _ => true, fun n => String.mk (List.replicate n 'x')⟩

/-- A world where every operation fails. -/
def wNone : World := ⟨fun _ => false, fun n => String.mk (List.replicate n 'x')⟩

/-- A configuration with every field empty/unset. -/
def basePlugin : Plugin :=
  { Debug := false, ShowEnv := false, Actions := [], AuthKey := "", Zone := "",
    Cluster := "", Project := "", Namespace := "", ChartRepo := "", Bucket := "",
    ChartPath := "", ChartVersion := "", Package := "", Release := "", Values := [] }

/-! ## Helper lemmas -/

theorem storageURL_ne_empty (b : String) : storageURL b ≠ "" := by
  intro h
  have hd : (storageURL b).data = ("" : String).data := congrArg String.data h
  obtain ⟨d⟩ := b
  simp [storageURL, String.ext_iff] at hd

/-! ## Claim C4: default resolution rules -/

/-- C4: default resolution satisfies, for every configuration: an empty
`package` becomes the final `/`-separated segment of `chartPath`; an empty
`release` becomes the post-step-1 `package`; an empty `chartRepo` with a
non-empty `bucket` becomes the storage URL templated on `bucket`, and is
unchanged otherwise; an empty `namespace` becomes exactly `"default"`;
already-set fields and all other fields are left unchanged. -/
theorem preparePlugin_defaults (p : Plugin) :
    (p.Package = "" → (preparePlugin p).Package = lastSegment p.ChartPath) ∧
    (p.Package ≠ "" → (preparePlugin p).Package = p.Package) ∧
    (p.Release = "" → (preparePlugin p).Release = (preparePlugin p).Package) ∧
    (p.Release ≠ "" → (preparePlugin p).Release = p.Release) ∧
    (p.ChartRepo = "" → p.Bucket ≠ "" →
      (preparePlugin p).ChartRepo = storageURL p.Bucket) ∧
    (p.ChartRepo ≠ "" → (preparePlugin p).ChartRepo = p.ChartRepo) ∧
    (p.ChartRepo = "" → p.Bucket = "" → (preparePlugin p).ChartRepo = "") ∧
    (p.Namespace = "" → (preparePlugin p).Namespace = "default") ∧
    (p.Namespace ≠ "" → (preparePlugin p).Namespace = p.Namespace) ∧
    (preparePlugin p).Debug = p.Debug ∧
    (preparePlugin p).ShowEnv = p.ShowEnv ∧
    (preparePlugin p).Actions = p.Actions ∧
    (preparePlugin p).AuthKey = p.AuthKey ∧
    (preparePlugin p).Zone = p.Zone ∧
    (preparePlugin p).Cluster = p.Cluster ∧
    (preparePlugin p).Project = p.Project ∧
    (preparePlugin p).Bucket = p.Bucket ∧
    (preparePlugin p).ChartPath = p.ChartPath ∧
    (preparePlugin p).ChartVersion = p.ChartVersion ∧
    (preparePlugin p).Values = p.Values := by
  by_cases hP : p.Package = "" <;> by_cases hR : p.Release = "" <;>
    by_cases hC : p.ChartRepo = "" <;> by_cases hB : p.Bucket = "" <;>
    by_cases hN : p.Namespace = "" <;>
    simp [preparePlugin, hP, hR, hC, hB, hN]

/-- Witness for C4 at concrete configurations: unset fields get the derived
defaults, set fields survive. -/
theorem preparePlugin_defaults_witness :
    (preparePlugin { basePlugin with ChartPath := "charts/app" }).Package =
      lastSegment "charts/app" ∧
    (preparePlugin { basePlugin with ChartPath := "charts/app" }).Namespace =
      "default" ∧
    (preparePlugin { basePlugin with Namespace := "ns", ChartRepo := "r" }).Namespace =
      "ns" ∧
    (preparePlugin { basePlugin with Namespace := "ns", ChartRepo := "r" }).ChartRepo =
      "r" ∧
    (preparePlugin { basePlugin with Bucket := "b" }).ChartRepo = storageURL "b" :=
  ⟨(preparePlugin_defaults _).1 rfl,
   (preparePlugin_defaults _).2.2.2.2.2.2.2.1 rfl,
   (preparePlugin_defaults _).2.2.2.2.2.2.2.2.1 (by decide),
   (preparePlugin_defaults _).2.2.2.2.2.1 (by decide),
   (preparePlugin_defaults _).2.2.2.2.1 rfl (by decide)⟩

/-! ## Claim C7: non-emptiness of resolved package and release -/

/-- C7 counterexample: for `chartPath = "charts/"` (final segment empty) and
unset `package`/`release`, both resolve to the empty string, refuting the
claim that they are always non-empty after default resolution. -/
theorem prepared_package_empty_cx :
    (preparePlugin { basePlugin with ChartPath := "charts/" }).Package = "" ∧
    (preparePlugin { basePlugin with ChartPath := "charts/" }).Release = "" := by
  decide

/-- C7 amended: after default resolution, `package` is empty exactly when the
configured `package` was empty and the final `/`-separated segment of
`chartPath` is empty; `release` is empty exactly when additionally the
configured `release` was empty. -/
theorem prepared_package_release_empty_iff (p : Plugin) :
    ((preparePlugin p).Package = "" ↔
      (p.Package = "" ∧ lastSegment p.ChartPath = "")) ∧
    ((preparePlugin p).Release = "" ↔
      (p.Release = "" ∧ p.Package = "" ∧ lastSegment p.ChartPath = "")) := by
  by_cases hP : p.Package = "" <;> by_cases hR : p.Release = "" <;>
    by_cases hC : p.ChartRepo = "" <;> by_cases hB : p.Bucket = "" <;>
    by_cases hN : p.Namespace = "" <;>
    simp [preparePlugin, hP, hR, hC, hB, hN]

/-! ## Claim C9: default resolution is idempotent and total -/

/-- C9: applying the resolver twice yields the same configuration as applying
it once, and the resolver's error result is always `nil`. -/
theorem preparePlugin_idempotent (p : Plugin) :
    preparePlugin (preparePlugin p) = preparePlugin p ∧
    (preparePluginRun p).2 = none := by
  refine ⟨?_, rfl⟩
  obtain ⟨dbg, se, acts, ak, z, cl, pr, ns, cr, bu, cp, cv, pk, rel, vals⟩ := p
  by_cases hP : pk = "" <;> by_cases hL : lastSegment cp = "" <;>
    by_cases hR : rel = "" <;> by_cases hC : cr = "" <;>
    by_cases hB : bu = "" <;> by_cases hN : ns = "" <;>
    simp [preparePlugin, hP, hL, hR, hC, hB, hN, storageURL_ne_empty]

/-! ## Evaluation equations for the effect primitives -/

theorem tempFileE_eq (w : World) (pat : String) (s : EffState) :
    tempFileE w pat s =
      ((if w.ok s.idx then .ok (w.tmpName s.idx) else .error .ioTempFile),
       { s with idx := s.idx + 1,
                trace := s.trace ++ [.tempFile pat (w.tmpName s.idx) 384] }) := by
  cases h : w.ok s.idx <;> simp [tempFileE, emit, h]

theorem fwriteE_eq (w : World) (file content : String) (s : EffState) :
    fwriteE w file content s =
      ((if w.ok s.idx then .ok () else .error .ioWrite),
       { s with idx := s.idx + 1, trace := s.trace ++ [.fwrite file content] }) := by
  cases h : w.ok s.idx <;> simp [fwriteE, emit, h]

theorem fcloseE_eq (w : World) (file : String) (s : EffState) :
    fcloseE w file s =
      ((if w.ok s.idx then .ok () else .error .ioClose),
       { s with idx := s.idx + 1, trace := s.trace ++ [.fclose file] }) := by
  cases h : w.ok s.idx <;> simp [fcloseE, emit, h]

theorem runCmdE_eq (w : World) (c : Cmd) (s : EffState) :
    runCmdE w c s =
      ((if w.ok s.idx then .ok () else .error (.cmdFailed c)),
       { s with idx := s.idx + 1, trace := s.trace ++ [.run c] }) := by
  cases h : w.ok s.idx <;> simp [runCmdE, emit, h]

theorem setenvE_eq (w : World) (key value : String) (s : EffState) :
    setenvE w key value s =
      (if w.ok s.idx then
        ((.ok ()),
         { s with idx := s.idx + 1, trace := s.trace ++ [.setenv key value],
                  env := s.env ++ [(key, value)] })
       else
        ((.error .ioSetenv),
         { s with idx := s.idx + 1, trace := s.trace ++ [.setenv key value] })) := by
  cases h : w.ok s.idx <;> simp [setenvE, emit, h]

/-! ## Claim C5: credential provisioning -/

/-- The events of a fully successful `setupProject` started at operation
index `i`, in order. -/
def setupEvents (w : World) (p : Plugin) (i : Nat) : List Event :=
  [.tempFile "auth-key.json" (w.tmpName i) 384,
   .fwrite (w.tmpName i) p.AuthKey,
   .fclose (w.tmpName i),
   .run (authCmd (w.tmpName i)),
   .run (projectCmd p),
   .run (credsCmd p),
   .setenv "GOOGLE_APPLICATION_CREDENTIALS" (w.tmpName i)]

/-- The error `setupProject` propagates when its k-th operation is the first
to fail. -/
def setupErr (w : World) (p : Plugin) (i : Nat) : Nat → Err
  | 0 => .ioTempFile
  | 1 => .ioWrite
  | 2 => .ioClose
  | 3 => .cmdFailed (authCmd (w.tmpName i))
  | 4 => .cmdFailed (projectCmd p)
  | 5 => .cmdFailed (credsCmd p)
  | _ => .ioSetenv

theorem setupProject_ok (w : World) (p : Plugin) (s : EffState)
    (h : ∀ j, j < 7 → w.ok (s.idx + j) = true) :
    setupProject w p s =
      (.ok (), ⟨s.idx + 7, s.trace ++ setupEvents w p s.idx,
        s.env ++ [("GOOGLE_APPLICATION_CREDENTIALS", w.tmpName s.idx)]⟩) := by
  have h0 : w.ok s.idx = true := by simpa using h 0 (by omega)
  have h1 := h 1 (by omega)
  have h2 := h 2 (by omega)
  have h3 := h 3 (by omega)
  have h4 := h 4 (by omega)
  have h5 := h 5 (by omega)
  have h6 := h 6 (by omega)
  simp [setupProject, tempFileE_eq, fwriteE_eq, fcloseE_eq, runCmds, runCmdE_eq,
    setenvE_eq, setupEvents, h0, h1, h2, h3, h4, h5, h6, Nat.add_assoc]

theorem setupProject_fail (w : World) (p : Plugin) (s : EffState) (k : Nat)
    (hk : k < 7) (hpre : ∀ j, j < k → w.ok (s.idx + j) = true)
    (hf : w.ok (s.idx + k) = false) :
    setupProject w p s =
      (.error (setupErr w p s.idx k),
        ⟨s.idx + (k + 1), s.trace ++ (setupEvents w p s.idx).take (k + 1), s.env⟩) := by
  have g : ∀ j, j < k → w.ok (s.idx + j) = true := hpre
  interval_cases k <;>
  · try simp only [Nat.add_zero] at hf
    try have h0 : w.ok s.idx = true := by simpa using g 0 (by omega)
    try have h1 : w.ok (s.idx + 1) = true := g 1 (by omega)
    try have h2 : w.ok (s.idx + 2) = true := g 2 (by omega)
    try have h3 : w.ok (s.idx + 3) = true := g 3 (by omega)
    try have h4 : w.ok (s.idx + 4) = true := g 4 (by omega)
    try have h5 : w.ok (s.idx + 5) = true := g 5 (by omega)
    simp [setupProject, tempFileE_eq, fwriteE_eq, fcloseE_eq, runCmds, runCmdE_eq,
      setenvE_eq, setupEvents, setupErr, Nat.add_assoc, hf, *]

/-- C5: credential provisioning writes `authKey` verbatim to a newly created,
uniquely named temp file with owner-only permissions (mode 0o600 = 384), then
runs, in strict order, service-credential activation, project selection, and
cluster-credential fetching (the order and contents are those of
`setupEvents`); the first failing operation aborts provisioning right there
with that operation's error (conjunct 2: the trace stops at that event and
the environment is untouched); only when every step succeeds is the file path
recorded in the process environment (conjunct 1).  Uniqueness of the name is
the OS guarantee of `ioutil.TempFile`, modelled as injectivity of the
oracle's name supply (conjunct 3); the operation counter strictly grows, so a
later provisioning run uses a fresh index and hence a fresh name
(conjunct 4). -/
theorem setupProject_spec (w : World) (p : Plugin) (s : EffState) :
    ((∀ j, j < 7 → w.ok (s.idx + j) = true) →
      setupProject w p s =
        (.ok (), ⟨s.idx + 7, s.trace ++ setupEvents w p s.idx,
          s.env ++ [("GOOGLE_APPLICATION_CREDENTIALS", w.tmpName s.idx)]⟩)) ∧
    (∀ k, k < 7 → (∀ j, j < k → w.ok (s.idx + j) = true) →
      w.ok (s.idx + k) = false →
      setupProject w p s =
        (.error (setupErr w p s.idx k),
          ⟨s.idx + (k + 1), s.trace ++ (setupEvents w p s.idx).take (k + 1), s.env⟩)) ∧
    ((∀ m n, w.tmpName m = w.tmpName n → m = n) →
      ∀ t : EffState, t.idx ≠ s.idx → w.tmpName t.idx ≠ w.tmpName s.idx) ∧
    s.idx < (setupProject w p s).2.idx := by
  refine ⟨setupProject_ok w p s,
    fun k hk hpre hf => setupProject_fail w p s k hk hpre hf,
    fun hinj t ht hEq => ht (hinj _ _ hEq), ?_⟩
  by_cases hall : ∀ j, j < 7 → w.ok (s.idx + j) = true
  · rw [setupProject_ok w p s hall]
    simp
  · have hex : ∃ j, j < 7 ∧ w.ok (s.idx + j) = false := by
      push_neg at hall
      obtain ⟨j, hj, hfj⟩ := hall
      exact ⟨j, hj, by simpa using hfj⟩
    have hk := Nat.find_spec hex
    have hpre : ∀ j, j < Nat.find hex → w.ok (s.idx + j) = true := by
      intro j hj
      cases hb : w.ok (s.idx + j) with
      | true => rfl
      | false => exact absurd ⟨Nat.lt_trans hj hk.1, hb⟩ (Nat.find_min hex hj)
    rw [setupProject_fail w p s (Nat.find hex) hk.1 hpre hk.2]
    simp

/-- Witness for C5: at concrete inputs, the success shape, an abort at the
very first operation (failed temp-file creation, environment untouched),
name uniqueness, and counter growth. -/
theorem setupProject_spec_witness :
    (setupProject wAllOk basePlugin initState =
      (.ok (), ⟨7, setupEvents wAllOk basePlugin 0,
        [("GOOGLE_APPLICATION_CREDENTIALS", "")]⟩)) ∧
    (setupProject wNone basePlugin initState =
      (.error .ioTempFile, ⟨1, [.tempFile "auth-key.json" "" 384], []⟩)) ∧
    wAllOk.tmpName 5 ≠ wAllOk.tmpName 0 ∧
    0 < (setupProject wAllOk basePlugin initState).2.idx := by
  refine ⟨(setupProject_spec wAllOk basePlugin initState).1 (by decide),
    (setupProject_spec wNone basePlugin initState).2.1 0 (by decide)
      (by intro j hj; omega) (by decide),
    (setupProject_spec wAllOk basePlugin initState).2.2.1 ?_ ⟨5, [], []⟩ (by decide),
    (setupProject_spec wAllOk basePlugin initState).2.2.2⟩
  intro m n h
  have hl := congrArg (fun t : String => t.data.length) h
  simpa [wAllOk] using hl

/-! ## Trace invariants: every event a run can add satisfies a predicate -/

/-- Between states `s` and `s'`, every trace event is either inherited or
satisfies `P`. -/
def EvInv (P : Event → Prop) (s s' : EffState) : Prop :=
  ∀ e, e ∈ s'.trace → e ∈ s.trace ∨ P e

theorem evInv_trans {P : Event → Prop} {s1 s2 s3 : EffState}
    (h1 : EvInv P s1 s2) (h2 : EvInv P s2 s3) : EvInv P s1 s3 := by
  intro e he
  rcases h2 e he with he' | hp
  · exact h1 e he'
  · exact .inr hp

theorem evInv_of_trace_eq {P : Event → Prop} {s s' : EffState} {l : List Event}
    (h : s'.trace = s.trace ++ l) (hl : ∀ e ∈ l, P e) : EvInv P s s' := by
  intro e he
  rw [h, List.mem_append] at he
  rcases he with he | he
  · exact .inl he
  · exact .inr (hl e he)

section EvInvLemmas

variable {P : Event → Prop} {w : World} {s : EffState}

theorem evInv_runCmdE {c : Cmd} (hP : P (.run c)) : EvInv P s (runCmdE w c s).2 :=
  evInv_of_trace_eq (l := [.run c]) (by simp [runCmdE_eq]) (by simpa using hP)

theorem evInv_tempFileE {pat : String}
    (hP : ∀ pa name mode, P (.tempFile pa name mode)) :
    EvInv P s (tempFileE w pat s).2 :=
  evInv_of_trace_eq (l := [.tempFile pat (w.tmpName s.idx) 384])
    (by simp [tempFileE_eq]) (by simpa using hP _ _ _)

theorem evInv_fwriteE {f c : String} (hP : P (.fwrite f c)) :
    EvInv P s (fwriteE w f c s).2 :=
  evInv_of_trace_eq (l := [.fwrite f c]) (by simp [fwriteE_eq]) (by simpa using hP)

theorem evInv_fcloseE {f : String} (hP : P (.fclose f)) :
    EvInv P s (fcloseE w f s).2 :=
  evInv_of_trace_eq (l := [.fclose f]) (by simp [fcloseE_eq]) (by simpa using hP)

theorem evInv_setenvE {k v : String} (hP : P (.setenv k v)) :
    EvInv P s (setenvE w k v s).2 := by
  refine evInv_of_trace_eq (l := [.setenv k v]) ?_ (by simpa using hP)
  cases h : w.ok s.idx <;> simp [setenvE_eq, h]

theorem evInv_runCmds {cs : List Cmd} (hP : ∀ c ∈ cs, P (.run c)) :
    ∀ s : EffState, EvInv P s (runCmds w cs s).2 := by
  induction cs with
  | nil => intro s e he; exact .inl he
  | cons c cs ih =>
    intro s
    have hc : EvInv P s (runCmdE w c s).2 := evInv_runCmdE (hP c (by simp))
    rcases hr : runCmdE w c s with ⟨r, s'⟩
    rw [hr] at hc
    cases r with
    | error e => simpa [runCmds, hr] using hc
    | ok _ =>
      have ht : EvInv P s' (runCmds w cs s').2 :=
        ih (fun c hc => hP c (by simp [hc])) s'
      simpa [runCmds, hr] using evInv_trans hc ht

theorem evInv_setupProject {p : Plugin}
    (htf : ∀ pa name mode, P (.tempFile pa name mode))
    (hfw : ∀ f c, P (.fwrite f c)) (hfc : ∀ f, P (.fclose f))
    (hse : ∀ k v, P (.setenv k v)) (hau : ∀ name, P (.run (authCmd name)))
    (hpr : P (.run (projectCmd p))) (hcr : P (.run (credsCmd p))) :
    EvInv P s (setupProject w p s).2 := by
  unfold setupProject
  have h1 : EvInv P s (tempFileE w "auth-key.json" s).2 := evInv_tempFileE htf
  rcases e1 : tempFileE w "auth-key.json" s with ⟨r1, s1⟩
  rw [e1] at h1
  cases r1 with
  | error e => simpa using h1
  | ok name =>
    simp only []
    have h2 : EvInv P s1 (fwriteE w name p.AuthKey s1).2 := evInv_fwriteE (hfw _ _)
    rcases e2 : fwriteE w name p.AuthKey s1 with ⟨r2, s2⟩
    rw [e2] at h2
    cases r2 with
    | error e => simpa using evInv_trans h1 h2
    | ok _ =>
      simp only []
      have h3 : EvInv P s2 (fcloseE w name s2).2 := evInv_fcloseE (hfc _)
      rcases e3 : fcloseE w name s2 with ⟨r3, s3⟩
      rw [e3] at h3
      cases r3 with
      | error e => simpa using evInv_trans (evInv_trans h1 h2) h3
      | ok _ =>
        simp only []
        have h4 : EvInv P s3 (runCmds w [authCmd name, projectCmd p, credsCmd p] s3).2 := by
          refine evInv_runCmds ?_ s3
          intro c hc
          simp only [List.mem_cons, List.not_mem_nil, or_false] at hc
          rcases hc with rfl | rfl | rfl
          · exact hau name
          · exact hpr
          · exact hcr
        rcases e4 : runCmds w [authCmd name, projectCmd p, credsCmd p] s3 with ⟨r4, s4⟩
        rw [e4] at h4
        have h14 := evInv_trans (evInv_trans (evInv_trans h1 h2) h3) h4
        cases r4 with
        | error e => simpa using h14
        | ok _ =>
          simpa using evInv_trans h14 (evInv_setenvE (hse _ _))

theorem evInv_runAction {p : Plugin} {a : String}
    (hpk : P (.run (packageCmd p))) (hpu : P (.run (pushCmd p)))
    (hkc : P (.run kubeCmd)) (hdc : P (.run (deployCmd p))) :
    EvInv P s (runAction w p a s).2 := by
  unfold runAction
  by_cases h1 : a = "create"
  · simpa [h1] using evInv_runCmdE (s := s) hpk
  · by_cases h2 : a = "push"
    · simpa [h1, h2] using evInv_runCmdE (s := s) hpu
    · by_cases h3 : a = "deploy"
      · simp only [h1, h2, h3, if_false, if_true, if_neg, if_pos]
        unfold deployPackage
        cases hD : p.Debug with
        | false =>
          simpa [hD] using evInv_runCmdE (s := s) hdc
        | true =>
          simp only [hD, if_pos]
          have hk : EvInv P s (kubeConfig w s).2 := evInv_runCmdE hkc
          rcases ek : kubeConfig w s with ⟨rk, sk⟩
          rw [ek] at hk
          cases rk with
          | error e => simpa using hk
          | ok _ => simpa using evInv_trans hk (evInv_runCmdE hdc)
      · intro e he
        simp only [h1, h2, h3, if_neg, if_false] at he
        exact .inl he

theorem evInv_runActions {p : Plugin} {as : List String}
    (hpk : P (.run (packageCmd p))) (hpu : P (.run (pushCmd p)))
    (hkc : P (.run kubeCmd)) (hdc : P (.run (deployCmd p))) :
    ∀ s : EffState, EvInv P s (runActions w p as s).2 := by
  induction as with
  | nil => intro s e he; exact .inl he
  | cons a as ih =>
    intro s
    have ha : EvInv P s (runAction w p a s).2 := evInv_runAction hpk hpu hkc hdc
    rcases hr : runAction w p a s with ⟨r, s'⟩
    rw [hr] at ha
    cases r with
    | error e => simpa [runActions, hr] using ha
    | ok _ => simpa [runActions, hr] using evInv_trans ha (ih s')

theorem evInv_Exec {p : Plugin}
    (htf : ∀ pa name mode, P (.tempFile pa name mode))
    (hfw : ∀ f c, P (.fwrite f c)) (hfc : ∀ f, P (.fclose f))
    (hse : ∀ k v, P (.setenv k v)) (hau : ∀ name, P (.run (authCmd name)))
    (hpr : P (.run (projectCmd p))) (hcr : P (.run (credsCmd p)))
    (hhi : P (.run helmInitCmd))
    (hpk : P (.run (packageCmd p))) (hpu : P (.run (pushCmd p)))
    (hkc : P (.run kubeCmd)) (hdc : P (.run (deployCmd p))) :
    EvInv P s (Exec w p s).2 := by
  unfold Exec
  have h1 : EvInv P s (setupProject w p s).2 :=
    evInv_setupProject htf hfw hfc hse hau hpr hcr
  rcases e1 : setupProject w p s with ⟨r1, s1⟩
  rw [e1] at h1
  cases r1 with
  | error e => simpa using h1
  | ok _ =>
    simp only []
    have h2 : EvInv P s1 (helmInit w s1).2 := evInv_runCmdE hhi
    rcases e2 : helmInit w s1 with ⟨r2, s2⟩
    rw [e2] at h2
    cases r2 with
    | error e => simpa using evInv_trans h1 h2
    | ok _ =>
      simpa using evInv_trans (evInv_trans h1 h2)
        (evInv_runActions hpk hpu hkc hdc s2)

end EvInvLemmas

/-- `main` is: resolve defaults, then the execute phase with its immediate
(delay-free) single retry; the prepare-retry branch of the source is
unreachable because the resolver cannot fail. -/
theorem mainRun_eq_execPhase (w : World) (p0 : Plugin) :
    mainRun w p0 =
      (match Exec w (preparePlugin p0) initState with
       | (.ok _, s') => (Outcome.success, s')
       | (.error _, s') =>
         match Exec w (preparePlugin p0) s' with
         | (.ok _, s'') => (Outcome.success, s'')
         | (.error e2, s'') => (Outcome.fatal e2, s'')) := by
  simp [mainRun, preparePluginRun]

/-- Every event of a whole run satisfies any predicate covering the event
shapes the program can produce (note: no `sleep` case is required — the
program can never sleep). -/
theorem mainRun_event_inv {P : Event → Prop} (w : World) (p0 : Plugin)
    (htf : ∀ pa name mode, P (.tempFile pa name mode))
    (hfw : ∀ f c, P (.fwrite f c)) (hfc : ∀ f, P (.fclose f))
    (hse : ∀ k v, P (.setenv k v)) (hau : ∀ name, P (.run (authCmd name)))
    (hpr : P (.run (projectCmd (preparePlugin p0))))
    (hcr : P (.run (credsCmd (preparePlugin p0))))
    (hhi : P (.run helmInitCmd))
    (hpk : P (.run (packageCmd (preparePlugin p0))))
    (hpu : P (.run (pushCmd (preparePlugin p0))))
    (hkc : P (.run kubeCmd))
    (hdc : P (.run (deployCmd (preparePlugin p0)))) :
    ∀ e ∈ (mainRun w p0).2.trace, P e := by
  intro e he
  rw [mainRun_eq_execPhase] at he
  have h1 : EvInv P initState (Exec w (preparePlugin p0) initState).2 :=
    evInv_Exec htf hfw hfc hse hau hpr hcr hhi hpk hpu hkc hdc
  rcases e1 : Exec w (preparePlugin p0) initState with ⟨r1, s1⟩
  rw [e1] at h1
  cases r1 with
  | ok _ =>
    simp only [e1] at he
    rcases h1 e he with h | h
    · simp [initState] at h
    · exact h
  | error pe =>
    have h2 : EvInv P s1 (Exec w (preparePlugin p0) s1).2 :=
      evInv_Exec htf hfw hfc hse hau hpr hcr hhi hpk hpu hkc hdc
    rcases e2 : Exec w (preparePlugin p0) s1 with ⟨r2, s2⟩
    rw [e2] at h2
    have he2 : e ∈ s2.trace := by
      cases r2 <;> simpa [e1, e2] using he
    rcases h2 e he2 with h | h
    · rcases h1 e h with h' | h'
      · simp [initState] at h'
      · exact h'
    · exact h

/-- The shape invariant of a whole run under configuration `q`: the program
never sleeps, and the only helm-`upgrade` command it can ever issue is the
single `deployCmd q` (whose override list has exactly one appended namespace
entry). -/
def UpgOnly (q : Plugin) : Event → Prop
  | .sleep _ => False
  | .run c => c.bin = helmBin → c.args.head? = some "upgrade" → c = deployCmd q
  | _ => True

theorem mainRun_upgOnly (w : World) (p0 : Plugin) :
    ∀ e ∈ (mainRun w p0).2.trace, UpgOnly (preparePlugin p0) e := by
  refine mainRun_event_inv w p0 ?_ ?_ ?_ ?_ ?_ ?_ ?_ ?_ ?_ ?_ ?_ ?_
  · intro pa name mode; trivial
  · intro f c; trivial
  · intro f; trivial
  · intro k v; trivial
  · intro name hbin; simp [authCmd, gcloudBin, helmBin] at hbin
  · intro hbin; simp [projectCmd, gcloudBin, helmBin] at hbin
  · intro hbin; simp [credsCmd, gcloudBin, helmBin] at hbin
  · intro _ hhead; simp [helmInitCmd] at hhead
  · intro _ hhead; simp [packageCmd] at hhead
  · intro hbin; simp [pushCmd, gsutilBin, helmBin] at hbin
  · intro hbin; simp [kubeCmd, kubectlBin, helmBin] at hbin
  · intro _ _; rfl

/-! ## Claim C1: what the prepare phase is, and its retry policy -/

def pC1 : Plugin := { basePlugin with Actions := ["deploy"] }

/-- C1 counterexample: in a world where credential provisioning fails (its
temp-file creation fails, on the first and every attempt), the run terminates
fatally with that error, yet its trace contains **no** sleep event — the
program never waits the claimed 10 time units — and the provisioning attempts
happen twice (they live inside the retried execute phase, which therefore
does run). -/
theorem prepare_retry_cx :
    (mainRun wNone pC1).1 = .fatal .ioTempFile ∧
    (mainRun wNone pC1).2.trace =
      [.tempFile "auth-key.json" "" 384, .tempFile "auth-key.json" "x" 384] ∧
    Event.sleep 10 ∉ (mainRun wNone pC1).2.trace := by decide

/-- C1 amended: the prepare phase consists of the configuration resolver
only, which never fails, so the fixed 10-unit delay and prepare retry are
unreachable and no delay ever occurs; credential provisioning and
packaging-tool initialization belong instead to the execute phase, which on
failure is retried exactly once with no delay, a second failure terminating
the process with the error. -/
theorem prepare_phase_amended (w : World) (p0 : Plugin) :
    (preparePluginRun p0).2 = none ∧
    mainRun w p0 =
      (match Exec w (preparePlugin p0) initState with
       | (.ok _, s') => (Outcome.success, s')
       | (.error _, s') =>
         match Exec w (preparePlugin p0) s' with
         | (.ok _, s'') => (Outcome.success, s'')
         | (.error e2, s'') => (Outcome.fatal e2, s'')) ∧
    (∀ n, Event.sleep n ∉ (mainRun w p0).2.trace) := by
  refine ⟨rfl, mainRun_eq_execPhase w p0, fun n hn => ?_⟩
  exact mainRun_upgOnly w p0 _ hn

/-- Witness for the amended C1 at a concrete run. -/
theorem prepare_phase_amended_witness :
    Event.sleep 10 ∉ (mainRun wNone basePlugin).2.trace :=
  (prepare_phase_amended wNone basePlugin).2.2 10

/-! ## Claim C10: handlers do not leak configuration changes -/

def pDup : Plugin := { basePlugin with Actions := ["deploy", "deploy"] }

/-- C10: handlers receive the configuration by value (Go value receivers,
hence the pure embedding), so the deploy handler's local append of
`namespace=<namespace>` is invisible to later invocations: every
helm-`upgrade` command issued anywhere in a whole run — however often
`deploy` occurs in `actions`, and across the execute retry — equals the one
command built from the dispatcher's unchanged configuration, whose override
list is the user `values` with exactly one namespace entry appended
(conjunct 1); in particular two consecutive deploys issue the identical
command twice (conjunct 2). -/
theorem deploy_frame (w : World) (p0 q : Plugin) (s : EffState) (c : Cmd) :
    (Event.run c ∈ (mainRun w p0).2.trace → c.bin = helmBin →
      c.args.head? = some "upgrade" → c = deployCmd (preparePlugin p0)) ∧
    (q.Debug = false → w.ok s.idx = true → w.ok (s.idx + 1) = true →
      runActions w q ["deploy", "deploy"] s =
        (.ok (), { s with idx := s.idx + 2,
                          trace := s.trace ++
                            [.run (deployCmd q), .run (deployCmd q)] })) := by
  constructor
  · intro hmem hbin hhead
    exact mainRun_upgOnly w p0 _ hmem hbin hhead
  · intro hD h0 h1
    simp [runActions, runAction, deployPackage, kubeConfig, hD, runCmdE_eq, h0, h1,
      Nat.add_assoc]

/-- Witness for C10: the helm-upgrade command of a double-deploy run equals
the dispatcher's single deploy command, and the double deploy emits it twice
from an unchanged configuration. -/
theorem deploy_frame_witness :
    deployCmd (preparePlugin pDup) = deployCmd (preparePlugin pDup) ∧
    runActions wAllOk basePlugin ["deploy", "deploy"] initState =
      (.ok (), ⟨2, [.run (deployCmd basePlugin), .run (deployCmd basePlugin)], []⟩) :=
  ⟨(deploy_frame wAllOk pDup basePlugin initState
      (deployCmd (preparePlugin pDup))).1 (by decide) rfl rfl,
   (deploy_frame wAllOk pDup basePlugin initState
      (deployCmd (preparePlugin pDup))).2 rfl (by decide) (by decide)⟩

/-! ## Claim C6: the execute phase and its retry -/

/-- Sequential composition of the action loop: after a prefix succeeds, the
loop continues with the rest from the reached state. -/
theorem runActions_append (w : World) (q : Plugin) (pre post : List String) :
    ∀ s s' : EffState, runActions w q pre s = (.ok (), s') →
      runActions w q (pre ++ post) s = runActions w q post s' := by
  induction pre with
  | nil =>
    intro s s' h
    simp only [runActions, Prod.mk.injEq] at h
    obtain ⟨-, rfl⟩ := h
    rfl
  | cons a as ih =>
    intro s s' h
    simp only [runActions, List.cons_append] at h ⊢
    rcases hr : runAction w q a s with ⟨r, st⟩
    rw [hr] at h
    cases r with
    | error e => simp at h
    | ok _ => exact ih st s' h

/-- C6: the execute phase processes `actions` in declared order — after a
successful prefix the loop resumes from the reached state (conjunct 1) — and
stops at the first handler failure, propagating its error (conjunct 2); the
phase dispatches `create`/`push`/`deploy` to the corresponding handlers
(conjuncts 3–5); if the phase succeeds the run succeeds (conjunct 6), and if
it fails it is retried exactly once, the retry resuming from exactly the
state the failed attempt left (hence with no added delay), a second failure
being fatal with its error (conjunct 7). -/
theorem exec_phase_retry (w : World) (p0 q : Plugin) (pre post : List String)
    (a : String) (s s' s'' sE : EffState) (e e1 : Err) :
    (runActions w q pre s = (.ok (), s') →
      runActions w q (pre ++ post) s = runActions w q post s') ∧
    (runActions w q pre s = (.ok (), s') → runAction w q a s' = (.error e, s'') →
      runActions w q (pre ++ a :: post) s = (.error e, s'')) ∧
    (runAction w q "create" s = createPackage w q s) ∧
    (runAction w q "push" s = pushPackage w q s) ∧
    (runAction w q "deploy" s = deployPackage w q s) ∧
    (Exec w (preparePlugin p0) initState = (.ok (), sE) →
      mainRun w p0 = (.success, sE)) ∧
    (Exec w (preparePlugin p0) initState = (.error e1, s') →
      mainRun w p0 =
        (match Exec w (preparePlugin p0) s' with
         | (.ok _, s2) => (Outcome.success, s2)
         | (.error e2, s2) => (Outcome.fatal e2, s2))) := by
  refine ⟨runActions_append w q pre post s s', ?_, by simp [runAction],
    by simp [runAction], by simp [runAction], ?_, ?_⟩
  · intro hpre hfail
    rw [runActions_append w q pre (a :: post) s s' hpre]
    simp only [runActions]
    rw [hfail]
  · intro hE
    rw [mainRun_eq_execPhase, hE]
  · intro hE
    rw [mainRun_eq_execPhase, hE]

/-- Witness for C6: a concrete failing middle action stops the loop with the
states computed, and a concrete execute-phase failure leads to the immediate
(delay-free) retry whose second failure is fatal. -/
theorem exec_phase_retry_witness :
    runActions wAllOk basePlugin (["create"] ++ "bogus" :: ["deploy"]) initState =
      (.error .unknownAction, ⟨1, [.run (packageCmd basePlugin)], []⟩) ∧
    mainRun wNone basePlugin =
      (.fatal .ioTempFile,
        ⟨2, [.tempFile "auth-key.json" "" 384, .tempFile "auth-key.json" "x" 384],
         []⟩) :=
  ⟨(exec_phase_retry wAllOk basePlugin basePlugin ["create"] ["deploy"] "bogus"
      initState ⟨1, [.run (packageCmd basePlugin)], []⟩
      ⟨1, [.run (packageCmd basePlugin)], []⟩ initState .unknownAction .ioTempFile).2.1
      (by decide) (by decide),
   (exec_phase_retry wNone basePlugin basePlugin [] [] ""
      initState ⟨1, [.tempFile "auth-key.json" "" 384], []⟩ initState initState
      .unknownAction .ioTempFile).2.2.2.2.2.2 (by decide)⟩

/-! ## Claim C3: unrecognized action identifiers -/

def pBogus : Plugin := { basePlugin with Actions := ["bogus"] }

/-- C3 counterexample: with the single unrecognized action `"bogus"` (in a
world where every command succeeds), the run does terminate fatally with the
unknown-action error, but only after the execute phase has been retried: the
packaging-tool initialization command appears twice in the trace, so the
failure *is* retried, refuting the claim that it is not. -/
theorem unknown_action_cx :
    (mainRun wAllOk pBogus).1 = .fatal .unknownAction ∧
    ((mainRun wAllOk pBogus).2.trace.count (Event.run helmInitCmd)) = 2 := by
  decide

/-- C3 amended: reaching an unrecognized identifier fails the current execute
pass immediately — no event is emitted for it and no subsequent action runs
(conjunct 1: the loop stops in exactly the state reached before the bad
identifier) — but the execute phase as a whole is then retried exactly once
like any execute failure, a second failure terminating the process with the
error (conjunct 2). -/
theorem unknown_action_amended (w : World) (q p0 : Plugin) (pre post : List String)
    (bad : String) (s s' s1 s2 : EffState) (e1 e2 : Err) :
    (bad ≠ "create" → bad ≠ "push" → bad ≠ "deploy" →
      runActions w q pre s = (.ok (), s') →
      runActions w q (pre ++ bad :: post) s = (.error .unknownAction, s')) ∧
    (Exec w (preparePlugin p0) initState = (.error e1, s1) →
      Exec w (preparePlugin p0) s1 = (.error e2, s2) →
      mainRun w p0 = (.fatal e2, s2)) := by
  constructor
  · intro h1 h2 h3 hpre
    rw [runActions_append w q pre (bad :: post) s s' hpre]
    simp [runActions, runAction, h1, h2, h3]
  · intro hE1 hE2
    rw [mainRun_eq_execPhase, hE1]
    show (match Exec w (preparePlugin p0) s1 with
      | (.ok _, s'') => (Outcome.success, s'')
      | (.error e2, s'') => (Outcome.fatal e2, s'')) = _
    rw [hE2]

/-- Witness for the amended C3 at concrete inputs. -/
theorem unknown_action_amended_witness :
    runActions wAllOk basePlugin (["create"] ++ "publish" :: ["deploy"]) initState =
      (.error .unknownAction, ⟨1, [.run (packageCmd basePlugin)], []⟩) ∧
    mainRun wNone pBogus =
      (.fatal .ioTempFile,
        ⟨2, [.tempFile "auth-key.json" "" 384, .tempFile "auth-key.json" "x" 384],
         []⟩) :=
  ⟨(unknown_action_amended wAllOk basePlugin basePlugin ["create"] ["deploy"]
      "publish" initState ⟨1, [.run (packageCmd basePlugin)], []⟩
      initState initState .unknownAction .unknownAction).1
      (by decide) (by decide) (by decide) (by decide),
   (unknown_action_amended wNone basePlugin pBogus [] [] "" initState initState
      ⟨1, [.tempFile "auth-key.json" "" 384], []⟩
      ⟨2, [.tempFile "auth-key.json" "" 384, .tempFile "auth-key.json" "x" 384], []⟩
      .ioTempFile .ioTempFile).2 (by decide) (by decide)⟩

/-! ## Claim C2: the deploy invocation's arguments -/

def pRel : Plugin :=
  { basePlugin with
    Package := "pkg", Release := "rel", ChartVersion := "1.0", Namespace := "ns" }

/-- C2 counterexample: for a configuration whose `release` (`"rel"`) differs
from its `package` (`"pkg"`), the deploy stage invokes the helm upgrade with
the **package** name in the release position — the trace shows `"pkg"` as
first positional argument and `"rel"` appears in no issued command —
refuting the claim that the release name `release` is passed. -/
theorem deploy_release_cx :
    (deployPackage wAllOk pRel initState).2.trace =
      [.run ⟨helmBin, ["upgrade", "pkg", "pkg-1.0.tgz", "--set", "namespace=ns",
        "--install", "--namespace", "ns"]⟩] ∧
    pRel.Release = "rel" ∧
    Event.run ⟨helmBin, ["upgrade", "rel", "pkg-1.0.tgz", "--set", "namespace=ns",
      "--install", "--namespace", "ns"]⟩ ∉
      (deployPackage wAllOk pRel initState).2.trace := by decide

/-- C2 amended: the deploy stage invokes the upgrade-or-install operation
exactly once per handler run, with the **package** name in the release-name
position (the two coincide whenever `release` was left unset), the local
artifact file `<package>-<chartVersion>.tgz`, the comma-joined `values` with
`namespace=<namespace>` appended after the user-supplied overrides exactly
once, the flag `--namespace <namespace>`, and `--install` enabled
(conjunct 4 spells out the argument vector, conjunct 5 the exactly-once
append); with the debug flag set, a successful diagnostic dump precedes it
(conjunct 2), a failed one suppresses it (conjunct 3). -/
theorem deployPackage_spec (w : World) (p : Plugin) (s : EffState) :
    (p.Debug = false →
      deployPackage w p s =
        ((if w.ok s.idx then .ok () else .error (.cmdFailed (deployCmd p))),
         { s with idx := s.idx + 1, trace := s.trace ++ [.run (deployCmd p)] })) ∧
    (p.Debug = true → w.ok s.idx = true →
      deployPackage w p s =
        ((if w.ok (s.idx + 1) then .ok () else .error (.cmdFailed (deployCmd p))),
         { s with idx := s.idx + 2,
                  trace := s.trace ++ [.run kubeCmd, .run (deployCmd p)] })) ∧
    (p.Debug = true → w.ok s.idx = false →
      deployPackage w p s =
        (.error (.cmdFailed kubeCmd),
         { s with idx := s.idx + 1, trace := s.trace ++ [.run kubeCmd] })) ∧
    deployCmd p = ⟨helmBin, ["upgrade", p.Package,
      p.Package ++ "-" ++ p.ChartVersion ++ ".tgz",
      "--set", joinComma (p.Values ++ ["namespace=" ++ p.Namespace]),
      "--install", "--namespace", p.Namespace]⟩ ∧
    (p.Values ++ ["namespace=" ++ p.Namespace]).count ("namespace=" ++ p.Namespace) =
      p.Values.count ("namespace=" ++ p.Namespace) + 1 := by
  refine ⟨?_, ?_, ?_, rfl, ?_⟩
  · intro hD
    simp [deployPackage, hD, runCmdE_eq]
  · intro hD hok
    simp [deployPackage, hD, kubeConfig, runCmdE_eq, hok, Nat.add_assoc]
  · intro hD hok
    simp [deployPackage, hD, kubeConfig, runCmdE_eq, hok]
  · simp [List.count_append]

/-- Witness for the amended C2: the concrete deploy invocation of `pRel`. -/
theorem deployPackage_spec_witness :
    deployPackage wAllOk pRel initState =
      (.ok (), ⟨1, [.run (deployCmd pRel)], []⟩) :=
  (deployPackage_spec wAllOk pRel initState).1 rfl

/-! ## Claim C8: the worked scenario -/

def pScenario : Plugin :=
  { basePlugin with
    ChartPath := "/charts/myapp", ChartVersion := "1.2.3", Bucket := "my-bucket",
    Actions := ["create", "publish", "deploy"] }

/-- C8 counterexample: with the literal action list
`[create, publish, deploy]` the run fails fatally on the unrecognized
identifier `publish` (the recognized identifier is `push`), and the artifact
is never copied to the bucket. -/
theorem scenario_publish_cx :
    (mainRun wAllOk pScenario).1 = .fatal .unknownAction ∧
    Event.run ⟨gsutilBin, ["cp", "myapp-1.2.3.tgz", "gs://my-bucket"]⟩ ∉
      (mainRun wAllOk pScenario).2.trace := by decide

def pScenarioPush : Plugin := { pScenario with Actions := ["create", "push", "deploy"] }

/-- C8 amended: same scenario with the code's `push` identifier in place of
`publish`: the full trace shows packaging invoked with version `1.2.3`
against `/charts/myapp`, the copy of `myapp-1.2.3.tgz` to `gs://my-bucket`,
and the deploy of release `myapp` (= resolved package) from file
`myapp-1.2.3.tgz` in namespace `default`, the run succeeding. -/
theorem scenario_push_amended :
    mainRun wAllOk pScenarioPush =
      (.success,
        ⟨11,
         [.tempFile "auth-key.json" "" 384,
          .fwrite "" "",
          .fclose "",
          .run ⟨gcloudBin, ["auth", "activate-service-account", "--key-file="]⟩,
          .run ⟨gcloudBin, ["config", "set", "project", ""]⟩,
          .run ⟨gcloudBin, ["container", "clusters", "get-credentials", "",
            "--zone", ""]⟩,
          .setenv "GOOGLE_APPLICATION_CREDENTIALS" "",
          .run ⟨helmBin, ["init", "--client-only"]⟩,
          .run ⟨helmBin, ["package", "--version", "1.2.3", "/charts/myapp"]⟩,
          .run ⟨gsutilBin, ["cp", "myapp-1.2.3.tgz", "gs://my-bucket"]⟩,
          .run ⟨helmBin, ["upgrade", "myapp", "myapp-1.2.3.tgz", "--set",
            "namespace=default", "--install", "--namespace", "default"]⟩],
         [("GOOGLE_APPLICATION_CREDENTIALS", "")]⟩) := by decide
